import Mathlib

/-!
Verification development for the gt-pro genotyping engine (src/gt_pro.cpp).

The definitions below are a shallow embedding of the C++ source.  Machine
integers are modelled as Nat with explicit reduction modulo 2 ^ 64 (or 2 ^ 32)
exactly where the C++ unsigned arithmetic can wrap.  Fallible code paths
(assert failures, fatal errors) are modelled with Except / Bool results.
Statements about the optimizer, the scanner and the index stores are proved
against these definitions.
-/

namespace GtPro

/-- Source constant: K = 31 bases per DB kmer. -/
def K : Nat := 31

/-- Source constant: number of bits of a packed kmer, K * BITS_PER_BASE. -/
def K2 : Nat := 62

/-- Source constant: BIT_MASK = (1 << (K * BITS_PER_BASE)) - 1. -/
def BIT_MASK : Nat := 2 ^ 62 - 1

/-- Source constant: LEN_BITS = 64 - START_BITS = 16. -/
def LEN_BITS : Nat := 16

/-- Source constant: MAX_LEN = (1 << LEN_BITS) - 1. -/
def MAX_LEN : Nat := 2 ^ 16 - 1

/-- Source constant: MAX_END = MAX_MMAP_GB * (1 << 30) / 8 = 2 ^ 43. -/
def MAX_END : Nat := 2 ^ 43

/-- Source constant: scanner tokens longer than this are truncated to it. -/
def MAX_TOKEN_LENGTH : Nat := 500

/-- Source constant: scanner tokens shorter than this are dropped. -/
def MIN_TOKEN_LENGTH : Nat := 31

/-- Modulus of the C++ uint64_t type. -/
def U64 : Nat := 2 ^ 64

/-- Modulus of the C++ uint32_t type. -/
def U32 : Nat := 2 ^ 32

/-- The CodeDict table: ACGT (either case) map to 0..3, everything else to
0xff, which the encoder assert rejects. -/
def codeDict (ch : Char) : Nat :=
  if ch = 'A' ∨ ch = 'a' then 0
  else if ch = 'C' ∨ ch = 'c' then 1
  else if ch = 'G' ∨ ch = 'g' then 2
  else if ch = 'T' ∨ ch = 't' then 3
  else 0xff

/-- Iteration count of the seq_encode template loop
`for (bitpos = 0; bitpos < len; bitpos += BITS_PER_BASE)`:
bitpos takes the even values below len, i.e. (len + 1) / 2 iterations. -/
def seqEncodeIters (len : Nat) : Nat := (len + 1) / 2

/-- seq_encode<int_type, len>(buf): or-accumulates code_dict[buf[i]] << (2 * i)
for each loop iteration i (bitpos = 2 * i < len).  Reading past the supplied
buffer is modelled by the getD default, which encodes as the 0xff sentinel. -/
def seq_encode (len : Nat) (buf : List Char) : Nat :=
  (List.range (seqEncodeIters len)).foldl
    (fun acc i => acc ||| (codeDict (buf.getD i (Char.ofNat 0)) <<< (2 * i))) 0

/-- The assert inside seq_encode: every consumed byte must have a 2-bit code,
`assert((b_code & 0xfc) == 0)`.  True exactly when no consumed byte is the
0xff sentinel. -/
def seqEncodeOk (len : Nat) (buf : List Char) : Bool :=
  (List.range (seqEncodeIters len)).all
    (fun i => codeDict (buf.getD i (Char.ofNat 0)) &&& 0xfc == 0)

/-- The four read-only arrays handed to kmer_lookup_work, as index functions:
lmer_index, mmer_bloom (64-bit words), kmers_index, and snps (triples
low64, high64, coord). -/
structure ScanDB where
  lmer_index : Nat → Nat
  mmer_bloom : Nat → Nat
  kmers_index : Nat → Nat
  snps : Nat → Nat × Nat × Nat

/-- Fatal scanner conditions: a non-ACGT byte reaching seq_encode (its assert)
or a truncated read sequence at end of file. -/
inductive ScanErr where
  | badBase : ScanErr
  | truncated : ScanErr
deriving DecidableEq

/-- Reconstruction of a DB kmer from a kmer_index entry inside the scanner
inner loop: offset = kmi & 0x1f, snp_id = kmi >> 5,
low_bits = low64 >> (62 - 2 * offset), high_bits = high64 << (2 * offset),
result (high_bits | low_bits) & BIT_MASK. -/
def dbKmerOfEntry (snps : Nat → Nat × Nat × Nat) (kmi : Nat) : Nat :=
  let offset := kmi &&& 0x1f
  let sr := snps (kmi >>> 5)
  ((sr.2.1 <<< (offset * 2)) % U64 ||| sr.1 >>> (62 - offset * 2)) &&& BIT_MASK

/-- The scanner inner loop over kmer_index positions z (fuel = end - z):
on an exact kmer match, push snp_id unless it is already in the footprint;
stop early when kmer < db_kmer (the run is sorted); otherwise continue. -/
def zLoop (kidx : Nat → Nat) (snps : Nat → Nat × Nat × Nat) (kmer : Nat) :
    Nat → Nat → List Nat → List Nat → List Nat × List Nat
  | 0, _, hits, fp => (hits, fp)
  | fuel + 1, z, hits, fp =>
    let kmi := kidx z
    let snp_id := kmi >>> 5
    let db_kmer := dbKmerOfEntry snps kmi
    if kmer = db_kmer then
      if snp_id ∈ fp then zLoop kidx snps kmer fuel (z + 1) hits fp
      else zLoop kidx snps kmer fuel (z + 1) (hits ++ [snp_id]) (snp_id :: fp)
    else if kmer < db_kmer then (hits, fp)
    else zLoop kidx snps kmer fuel (z + 1) hits fp

/-- One window position j of the per-token loop: encode the XX = (M3 + 1) / 2
bases at the tail of the window, test the bloom bit, and on a hit encode the
31-mer and walk the lmer run.  The seq_encode asserts are modelled as
badBase errors. -/
def windowStep (M2 M3 : Nat) (db : ScanDB) (buf : List Char)
    (st : Except ScanErr (List Nat × List Nat)) (j : Nat) :
    Except ScanErr (List Nat × List Nat) :=
  match st with
  | Except.error e => Except.error e
  | Except.ok (hits, fp) =>
    if seqEncodeOk ((M3 + 1) / 2) (buf.drop (j + K - (M3 + 1) / 2)) then
      let mp := seq_encode ((M3 + 1) / 2) (buf.drop (j + K - (M3 + 1) / 2)) &&& (2 ^ M3 - 1)
      if (db.mmer_bloom (mp / 64) >>> (mp % 64)) &&& 1 = 1 then
        if seqEncodeOk K (buf.drop j) then
          let kmer := seq_encode K (buf.drop j)
          let range := db.lmer_index (kmer >>> M2)
          let start := range >>> LEN_BITS
          Except.ok (zLoop db.kmers_index db.snps kmer
            (min MAX_END (start + (range &&& MAX_LEN)) - start) start hits fp)
        else Except.error ScanErr.badBase
      else Except.ok (hits, fp)
    else Except.error ScanErr.badBase

/-- The per-token window loop `for (j = 0; j <= token_length - K; ++j)`. -/
def processToken (M2 M3 : Nat) (db : ScanDB) (buf : List Char) (tokLen : Nat)
    (hits fp : List Nat) : Except ScanErr (List Nat × List Nat) :=
  (List.range (tokLen - K + 1)).foldl (windowStep M2 M3 db buf) (Except.ok (hits, fp))

/-- The scanner per-character state: previous character c, newline count
n_lines, current token length, the retained token bytes (first 500), the
per-read dedup footprint, the accumulated hits, and a fatal-error marker. -/
structure ScanState where
  c : Char
  n_lines : Nat
  token_length : Nat
  seq_buf : List Char
  footprint : List Nat
  kmer_matches : List Nat
  err : Option ScanErr

/-- Token processing guarded by MIN_TOKEN_LENGTH <= len <= MAX_TOKEN_LENGTH;
out-of-bounds tokens are dropped silently. -/
def tokenResult (M2 M3 : Nat) (db : ScanDB) (s : ScanState) :
    Except ScanErr (List Nat × List Nat) :=
  if MIN_TOKEN_LENGTH ≤ s.token_length ∧ s.token_length ≤ MAX_TOKEN_LENGTH then
    processToken M2 M3 db s.seq_buf s.token_length s.kmer_matches s.footprint
  else Except.ok (s.kmer_matches, s.footprint)

/-- One iteration of the scanner byte loop.  n_lines is bumped when the
previous character was a newline; bytes of lines with index not congruent to
1 mod 4 are skipped; other bytes either extend the current token or, at a
token end (newline or N wildcard), trigger token processing; the footprint is
cleared only when the current character is the newline. -/
def charStep (M2 M3 : Nat) (db : ScanDB) (s : ScanState) (ch : Char) : ScanState :=
  if s.err.isSome then s else
  let nl := if s.c = '\n' then s.n_lines + 1 else s.n_lines
  if nl % 4 ≠ 1 then { s with c := ch, n_lines := nl }
  else if ¬ (ch = '\n' ∨ ch = 'N' ∨ ch = 'n') then
    { s with
        c := ch,
        n_lines := nl,
        seq_buf := if s.token_length < MAX_TOKEN_LENGTH then s.seq_buf ++ [ch] else s.seq_buf,
        token_length := s.token_length + 1 }
  else
    match tokenResult M2 M3 db s with
    | Except.error e => { s with c := ch, n_lines := nl, err := some e }
    | Except.ok (m, f) =>
      { c := ch,
        n_lines := nl,
        token_length := 0,
        seq_buf := [],
        footprint := if ch = '\n' then [] else f,
        kmer_matches := m,
        err := none }

/-- Initial scanner state (c starts as the NUL character). -/
def initState : ScanState :=
  { c := Char.ofNat 0,
    n_lines := 0,
    token_length := 0,
    seq_buf := [],
    footprint := [],
    kmer_matches := [],
    err := none }

/-- Scanner state after consuming the whole input byte stream. -/
def scanFinal (M2 M3 : Nat) (db : ScanDB) (input : List Char) : ScanState :=
  input.foldl (charStep M2 M3 db) initState

/-- Insertion into a sorted list, for modelling std::sort ascending. -/
def sortedInsert (x : Nat) : List Nat → List Nat
  | [] => [x]
  | y :: ys => if x ≤ y then x :: y :: ys else y :: sortedInsert x ys

/-- Ascending sort (models std::sort on the hit coordinates). -/
def sortNat (l : List Nat) : List Nat := l.foldr sortedInsert []

/-- The emission loop body: cur_snp and cur_count walk the sorted list, a
line is written whenever the value changes.  The loop never flushes the
final group (the source FIXME). -/
def rleGo : Nat → Nat → List Nat → List (Nat × Nat)
  | _, _, [] => []
  | cur, cnt, x :: xs => if x ≠ cur then (cur, cnt) :: rleGo x 1 xs else rleGo cur (cnt + 1) xs

/-- Emission: map hit snp_ids to snp coordinates, sort ascending, and
run-length encode with the source loop (zero hits give an empty file). -/
def emitMatches (db : ScanDB) (hits : List Nat) : List (Nat × Nat) :=
  if hits.isEmpty then []
  else
    let sorted := sortNat (hits.map (fun id => (db.snps id).2.2))
    rleGo (sorted.headD 0) 0 sorted

/-- End-to-end scanner for one input file: per-byte loop, end-of-file
truncation check (token_length nonzero is fatal), then emission. -/
def scanRun (M2 M3 : Nat) (db : ScanDB) (input : List Char) :
    Except ScanErr (List (Nat × Nat)) :=
  let s := scanFinal M2 M3 db input
  match s.err with
  | some e => Except.error e
  | none =>
    if s.token_length ≠ 0 then Except.error ScanErr.truncated
    else Except.ok (emitMatches db s.kmer_matches)

/-- The exact condition under which charStep clears the footprint: no prior
fatal error, the current line is a sequence line, and the character is the
terminating newline of that line. -/
def clearsAt (s : ScanState) (ch : Char) : Prop :=
  s.err = none ∧ (if s.c = '\n' then s.n_lines + 1 else s.n_lines) % 4 = 1 ∧ ch = '\n'

instance (s : ScanState) (ch : Char) : Decidable (clearsAt s ch) := by
  unfold clearsAt; exact inferInstance

/-- Line index of the next character to be consumed (n_lines is bumped one
iteration late, when the previous character was the newline). -/
def elOf (s : ScanState) : Nat :=
  if s.c = '\n' then s.n_lines + 1 else s.n_lines

/-- Dedup-growth relation between scanner accumulator states: the hit list
only grows, by a duplicate-free delta of snp_ids that were not in the old
footprint and are in the new one, and the footprint only grows. -/
def GrowsDedup (m f m2 f2 : List Nat) : Prop :=
  (∀ x, x ∈ f → x ∈ f2) ∧
  ∃ d, m2 = m ++ d ∧ d.Nodup ∧ ∀ x, x ∈ d → x ∉ f ∧ x ∈ f2

/-- One bloom update of the optimizer build loop:
`mmer_bloom[idx / 64] |= 1 << (idx % 64)`. -/
def setBloomBit (bloom : Nat → Nat) (idx : Nat) : Nat → Nat :=
  fun w => if w = idx / 64 then bloom w ||| (1 <<< (idx % 64)) else bloom w

/-- The mmer_bloom built by the optimizer from the source DB records
(pairs snp_with_offset, kmer): for each record the bit at position
`kmer & ((1 << M3) - 1)` is set. -/
def buildBloom (M3 : Nat) (recs : List (Nat × Nat)) : Nat → Nat :=
  recs.foldl (fun bloom r => setBloomBit bloom (r.2 &&& (2 ^ M3 - 1))) (fun _ => 0)

/-- The optimizer state while building snps and kmer_index: the
coord-to-snp_id map (assoc list, insertion order), the snps table, the
per-snp coverage masks (snps_known_bits, not persisted), and kmer_index. -/
structure BuildState where
  snps_map : List (Nat × Nat)
  snps : List (Nat × Nat × Nat)
  known : List (Nat × Nat)
  kmer_index : List Nat

/-- Empty optimizer state. -/
def initBuild : BuildState :=
  { snps_map := [], snps := [], known := [], kmer_index := [] }

/-- The kmer_index entry the source actually computes:
`(snp_id << 5) || offset` with the LOGICAL or operator, so the stored value
is 1 whenever the 32-bit shift result or the offset is nonzero, else 0. -/
def kmer_repr_code (snp_id offset : Nat) : Nat :=
  if (snp_id <<< 5) % U32 ≠ 0 ∨ offset ≠ 0 then 1 else 0

/-- Modelled from the spec: the kmer_index entry the spec mandates,
`(snp_id << 5) | offset` with the BITWISE or, in 32 bits. -/
def kmer_repr_spec (snp_id offset : Nat) : Nat :=
  ((snp_id <<< 5) ||| offset) % U32

/-- One record (snp_with_offset, kmer) of the optimizer kmer/snps build pass:
split the record, allocate or reuse the snp_id, run the source asserts
(offset bound, snp count bound, redundant-base agreement, coverage-mask
consistency), append the kmer_index entry, and or-accumulate
low_bits = kmer << (62 - 2 * offset) and high_bits = kmer >> (2 * offset)
into the snp record, extending the coverage masks.  An assert failure is
Except.error. -/
def buildRecordStep (st : BuildState) (r : Nat × Nat) : Except Unit BuildState :=
  let kmer := r.2
  let snp := r.1 >>> 8
  let offset := r.1 &&& 0xff
  let found := st.snps_map.find? (fun p => p.1 == snp)
  let snp_id : Nat := match found with
    | some p => p.2
    | none => st.snps_map.length
  let st1 := match found with
    | some _ => st
    | none =>
      { st with
          snps_map := st.snps_map ++ [(snp, snp_id)],
          snps := st.snps ++ [(0, 0, snp)],
          known := st.known ++ [(0, 0)] }
  if ¬ (offset < K) then Except.error () else
  if ¬ (snp_id < 2 ^ 27) then Except.error () else
  let st2 := { st1 with kmer_index := st1.kmer_index ++ [kmer_repr_code snp_id offset] }
  let sr := st2.snps.getD snp_id (0, 0, 0)
  let kb := st2.known.getD snp_id (0, 0)
  let low_bits := (kmer <<< (62 - offset * 2)) % U64
  let high_bits := kmer >>> (offset * 2)
  if ¬ (low_bits >>> 62 = high_bits &&& 0x3) then Except.error () else
  let kmer_mask_0 := (BIT_MASK <<< (62 - offset * 2)) % U64
  let kmer_mask_1 := BIT_MASK >>> (offset * 2)
  if ¬ ((kb.1 &&& kmer_mask_0) &&& sr.1 = (kb.1 &&& kmer_mask_0) &&& low_bits) then
    Except.error () else
  if ¬ ((kb.2 &&& kmer_mask_1) &&& sr.2.1 = (kb.2 &&& kmer_mask_1) &&& high_bits) then
    Except.error () else
  Except.ok
    { st2 with
        snps := st2.snps.set snp_id (sr.1 ||| low_bits, sr.2.1 ||| high_bits, sr.2.2),
        known := st2.known.set snp_id (kb.1 ||| kmer_mask_0, kb.2 ||| kmer_mask_1) }

/-- Sequential build pass over a list of source-DB records. -/
def buildLoop : BuildState → List (Nat × Nat) → Except Unit BuildState
  | st, [] => Except.ok st
  | st, r :: rs =>
    match buildRecordStep st r with
    | Except.error e => Except.error e
    | Except.ok st2 => buildLoop st2 rs

/-- True when the build pass completes without an assert failure. -/
def buildSucceeds (recs : List (Nat × Nat)) : Bool :=
  match buildLoop initBuild recs with
  | Except.error _ => false
  | Except.ok _ => true

/-- The kmer_index produced by the build pass (empty on abort). -/
def builtKmerIndex (recs : List (Nat × Nat)) : List Nat :=
  match buildLoop initBuild recs with
  | Except.error _ => []
  | Except.ok st => st.kmer_index

/-- One record of the post-build validation pass: decode the kmer_index
entry, run the asserts (offset and snp_id bounds, redundant-base agreement),
reconstruct the kmer from the snp record via
low_bits = low64 >> (62 - 2 * offset), high_bits = high64 << (2 * offset),
(high_bits | low_bits) & BIT_MASK, and compare with the source kmer. -/
def validateRecord (snps : List (Nat × Nat × Nat)) (kmi db_kmer : Nat) : Bool :=
  let offset := kmi &&& 0x1f
  let snp_id := kmi >>> 5
  if ¬ (offset < 31 ∧ snp_id ≤ snps.length) then false else
  let sr := snps.getD snp_id (0, 0, 0)
  if ¬ (sr.1 >>> 62 = sr.2.1 &&& 0x3) then false else
  ((sr.2.1 <<< (offset * 2)) % U64 ||| sr.1 >>> (62 - offset * 2)) &&& BIT_MASK == db_kmer

/-- Build pass followed by the post-build validation of every record:
true only if no assert fails and every record round-trips. -/
def buildAndValidate (recs : List (Nat × Nat)) : Bool :=
  match buildLoop initBuild recs with
  | Except.error _ => false
  | Except.ok st =>
    (List.range recs.length).all
      (fun p => validateRecord st.snps (st.kmer_index.getD p 0) ((recs.getD p (0, 0)).2))

/-- Well-formedness of a source DB: records sorted ascending by kmer. -/
def kmersSorted : List (Nat × Nat) → Bool
  | [] => true
  | [_] => true
  | a :: b :: rest => decide (a.2 ≤ b.2) && kmersSorted (b :: rest)

/-- The loop bound of both optimizer passes in the source:
`for (uint64_t end = 0; end < 20*1000*1000; end += 2)` with
`db_filesize / 8` commented out, so the number of record indices visited is
a constant 10 ^ 7, independent of the file size. -/
def optimizerRecordsProcessed : Nat → Nat :=
  fun _ => (20 * 1000 * 1000) / 2

/-- Number of 16-byte records actually present in the source DB file. -/
def sourceRecordCount (db_filesize : Nat) : Nat :=
  db_filesize / 16

/-- DBIndex::mmap_or_load: with a nonzero file size, derive the expected
element count from the file when the constructor count was 0, assert
`filesize == expected * sizeof(element)` (failure is fatal), and adopt the
file contents with needs_build = false; with a missing or empty file,
allocate a zero filled buffer of expected elements and report
needs_build = true. -/
def mmapOrLoad (sizeofElem expected filesize : Nat) (fileData : List Nat) :
    Except Unit (Bool × List Nat) :=
  if filesize ≠ 0 then
    let exp := if expected = 0 then filesize / sizeofElem else expected
    if filesize = exp * sizeofElem then Except.ok (false, fileData)
    else Except.error ()
  else Except.ok (true, List.replicate expected 0)

/-- Startup parameter validation in main: the range asserts on L2, M2, M3
followed by the hard asserts `L2 == 30` and `M2 == 32`
(with M2 = K2 - L2 in C++ int arithmetic). -/
def paramsAccepted (L2 M3 : Int) : Bool :=
  decide (0 < L2 ∧ L2 ≤ 32 ∧ 0 < 62 - L2 ∧ 62 - L2 < 64 ∧ 0 < M3 ∧ M3 < 64 ∧
    L2 = 30 ∧ 62 - L2 = 32)

/-- A 31-base token: C followed by thirty A, encoding to the packed value 1
under the source seq_encode. -/
def seqTok : List Char := 'C' :: List.replicate 30 'A'

/-- A well-formed single-read FASTQ file whose sequence line is seqTok. -/
def fastqOneRead : List Char :=
  ('@' :: 'r' :: '\n' :: seqTok) ++ ('\n' :: '+' :: '\n' :: List.replicate 31 'I') ++ ['\n']

/-- A FASTQ file whose final quality line is cut off without a newline
(3 newlines total, so the trailing bytes lie on line index 3). -/
def fastqTruncatedQual : List Char :=
  ('@' :: 'r' :: '\n' :: seqTok) ++ ('\n' :: '+' :: '\n' :: List.replicate 5 'I')

/-- An all-zero index set (no bloom bit set, empty lmer runs). -/
def emptyDB : ScanDB :=
  { lmer_index := fun _ => 0,
    mmer_bloom := fun _ => 0,
    kmers_index := fun _ => 0,
    snps := fun _ => (0, 0, 0) }

/-- A tiny index set holding exactly the kmer 1 for snp_id 0 at coord 1000
(snps[0] = (2 ^ 62, 1, 1000), entry 0 decodes to snp 0 offset 0, lmer run
of length 1 at lmer 0), with the bloom pre-filter forced open. -/
def openBloomDB : ScanDB :=
  { lmer_index := fun l => if l = 0 then 1 else 0,
    mmer_bloom := fun _ => 2 ^ 64 - 1,
    kmers_index := fun _ => 0,
    snps := fun i => if i = 0 then (2 ^ 62, 1, 1000) else (0, 0, 0) }

/-- The single-record source DB used against claims C1 and C3:
snp coord 1000, offset 5, kmer 1. -/
def dbRecsOne : List (Nat × Nat) := [((1000 <<< 8) ||| 5, 1)]

/-- The same index set as openBloomDB but with the mmer_bloom that the
optimizer actually builds from dbRecsOne at M3 = 36. -/
def builtBloomDB : ScanDB :=
  { lmer_index := fun l => if l = 0 then 1 else 0,
    mmer_bloom := buildBloom 36 dbRecsOne,
    kmers_index := fun _ => 0,
    snps := fun i => if i = 0 then (2 ^ 62, 1, 1000) else (0, 0, 0) }

/-- A two-record source DB introducing two distinct SNPs, both at offset 0,
with kmers 1 and 2 (sorted): the second record has snp_id 1. -/
def dbRecsTwo : List (Nat × Nat) := [((100 <<< 8), 1), ((200 <<< 8), 2)]

set_option maxRecDepth 10000 in
/-- Claim C1 (code bug): on the well-formed single-record source DB dbRecsOne
(sorted, coord 1000, offset 5, kmer 1) the build pass completes, but the
emitted kmer_index entry is 1 (the logical-or slip), so the reconstruction
performed by the post-build validation yields 0, not the record kmer 1:
the validation pass fails, contradicting the claimed round-trip. -/
theorem C1_optimizer_roundtrip_fails :
    kmersSorted dbRecsOne = true ∧
    buildSucceeds dbRecsOne = true ∧
    builtKmerIndex dbRecsOne = [1] ∧
    buildAndValidate dbRecsOne = false := by
  decide

set_option maxRecDepth 10000 in
/-- Claim C2 (code bug): on dbRecsTwo the second record (snp_id 1, offset 0)
is stored as kmer_repr_code 1 0 = 1, because the source computes
`(snp_id << 5) || offset` with the logical or; the claimed bitwise entry is
kmer_repr_spec 1 0 = 32, and decoding the stored entry 1 yields
(snp_id, offset) = (0, 1), not (1, 0). -/
theorem C2_kmer_index_entry_is_logical_or :
    builtKmerIndex dbRecsTwo = [kmer_repr_code 0 0, kmer_repr_code 1 0] ∧
    kmer_repr_code 1 0 = 1 ∧
    kmer_repr_spec 1 0 = 32 ∧
    kmer_repr_code 1 0 ≠ kmer_repr_spec 1 0 ∧
    (kmer_repr_code 1 0) >>> 5 = 0 ∧ (kmer_repr_code 1 0) &&& 0x1f = 1 := by
  decide

set_option maxRecDepth 100000 in
/-- Claim C3 (code bug): the kmer of the 31-base token seqTok encodes to 1,
which is a kmer of the source DB dbRecsOne, and the bloom bit at position
kmer & (2 ^ 36 - 1) = 1 is set by the optimizer; yet the scanner looks up
position m_pres = 0 (computed by seq_encode over the tail of the window),
finds the bit clear, and skips the window: the scan over builtBloomDB finds
nothing, while the same scan with the pre-filter forced open finds snp 0.
The stage-1 pre-filter therefore has false negatives. -/
theorem C3_bloom_prefilter_false_negative :
    ((1 : Nat) ∈ dbRecsOne.map Prod.snd) ∧
    seq_encode K seqTok = 1 ∧
    ((buildBloom 36 dbRecsOne) ((1 &&& (2 ^ 36 - 1)) / 64) >>>
      ((1 &&& (2 ^ 36 - 1)) % 64)) &&& 1 = 1 ∧
    seq_encode ((36 + 1) / 2) (seqTok.drop (0 + K - (36 + 1) / 2)) &&& (2 ^ 36 - 1) = 0 ∧
    ((buildBloom 36 dbRecsOne) 0 >>> 0) &&& 1 = 0 ∧
    (scanFinal 32 36 builtBloomDB fastqOneRead).kmer_matches = [] ∧
    (scanFinal 32 36 openBloomDB fastqOneRead).kmer_matches = [0] := by
  decide

set_option maxRecDepth 100000 in
/-- Claim C4 (code bug): scanning fastqOneRead against openBloomDB records
exactly one hit, snp_id 0 with coordinate 1000, yet the emission loop writes
no line at all, because its run-length flush never emits the final group
(the source FIXME); the claim requires the line (1000, 1). -/
theorem C4_emission_drops_last_group :
    (scanFinal 32 36 openBloomDB fastqOneRead).kmer_matches = [0] ∧
    ((scanFinal 32 36 openBloomDB fastqOneRead).kmer_matches.map
      (fun i => (openBloomDB.snps i).2.2)) = [1000] ∧
    scanRun 32 36 openBloomDB fastqOneRead = Except.ok [] := by
  exact ⟨by decide, by decide, rfl⟩

/-- Claim C5 (code bug): both optimizer passes visit a constant 10 ^ 7 record
indices (loop bound 20,000,000 on the 8-byte index, the db_filesize / 8
bound is commented out in the source), so on a DB of 160000016 bytes
(10,000,001 records) the final record is never processed. -/
theorem C5_loop_bound_is_constant :
    optimizerRecordsProcessed 160000016 = 10000000 ∧
    sourceRecordCount 160000016 = 10000001 ∧
    optimizerRecordsProcessed 160000016 ≠ sourceRecordCount 160000016 ∧
    ¬ 10000000 < optimizerRecordsProcessed 160000016 ∧
    10000000 < sourceRecordCount 160000016 := by
  decide

/-- Claim C6 counterexample: the pair -l 29 (the documented default, inside
the claimed range 1..32) with -m 36 (inside 1..63) is rejected by startup
validation, because of the hard assert L2 == 30. -/
theorem C6_cex :
    ((1 : Int) ≤ 29 ∧ (29 : Int) ≤ 32) ∧ ((1 : Int) ≤ 36 ∧ (36 : Int) ≤ 63) ∧
    paramsAccepted 29 36 = false := by
  decide

/-- Claim C6 amended: startup parameter validation accepts exactly the pairs
with -l equal to 30 and -m in 1..63; every other -l value, including the
default 29, fails the L2 == 30 assert. -/
theorem C6_amended (l m : Int) :
    paramsAccepted l m = true ↔ (l = 30 ∧ 0 < m ∧ m < 64) := by
  unfold paramsAccepted
  simp only [decide_eq_true_eq]
  constructor
  · rintro ⟨-, -, -, -, h5, h6, h7, -⟩
    exact ⟨h7, h5, h6⟩
  · rintro ⟨h7, h5, h6⟩
    subst h7
    refine ⟨by norm_num, by norm_num, by norm_num, by norm_num, h5, h6, rfl, by norm_num⟩

/-- Claim C8: for a store opened with a nonzero expected element count,
needs_build = false exactly when the backing file has size
expected * sizeof(element) (the contents are adopted as-is); a missing or
empty file yields needs_build = true with a zero filled buffer of
expected elements; an existing file of any other size is fatal. -/
theorem C8_open (sizeofElem expected filesize : Nat) (data : List Nat)
    (hs : 0 < sizeofElem) (he : 0 < expected) :
    ((mmapOrLoad sizeofElem expected filesize data = Except.ok (false, data)) ↔
      filesize = expected * sizeofElem) ∧
    (filesize = 0 →
      mmapOrLoad sizeofElem expected filesize data =
        Except.ok (true, List.replicate expected 0)) ∧
    (filesize ≠ 0 → filesize ≠ expected * sizeofElem →
      mmapOrLoad sizeofElem expected filesize data = Except.error ()) := by
  have hex : expected ≠ 0 := he.ne'
  by_cases h0 : filesize = 0
  · subst h0
    have hred : mmapOrLoad sizeofElem expected 0 data =
        Except.ok (true, List.replicate expected 0) := by
      unfold mmapOrLoad
      simp
    refine ⟨?_, fun _ => hred, fun h _ => absurd rfl h⟩
    rw [hred]
    constructor
    · intro h
      exact absurd h (by simp)
    · intro h
      have := Nat.mul_pos he hs
      omega
  · have hred : mmapOrLoad sizeofElem expected filesize data =
        (if filesize = expected * sizeofElem then Except.ok (false, data)
         else Except.error ()) := by
      unfold mmapOrLoad
      rw [if_pos h0]
      simp only [if_neg hex]
    rw [hred]
    by_cases h2 : filesize = expected * sizeofElem
    · rw [if_pos h2]
      exact ⟨⟨fun _ => h2, fun _ => rfl⟩, fun hz => absurd hz h0, fun _ hne => absurd h2 hne⟩
    · rw [if_neg h2]
      exact ⟨⟨fun h => absurd h (by simp), fun h => absurd h h2⟩,
        fun hz => absurd hz h0, fun _ _ => rfl⟩

/-- Witness for claim C8 at a concrete store: element size 8, expected count
5, a 40-byte file is adopted with needs_build = false. -/
theorem C8_open_witness : mmapOrLoad 8 5 40 [7] = Except.ok (false, [7]) :=
  (C8_open 8 5 40 [7] (by decide) (by decide)).1.mpr (by decide)

/-- Claim C9 counterexample: the snps store (element size 24, constructed
with expected count 0) hits the fatal size-mismatch assert on an existing
25-byte file, so stores opened without an expected count can also trigger
the fatal path, contrary to the claim that only mmer_bloom and lmer_index
can. -/
theorem C9_cex : mmapOrLoad 24 0 25 [] = Except.error () := rfl

/-- Claim C9 amended: for a store opened with expected count 0, the expected
count is derived from the file size, so any existing file whose size is a
positive multiple of the element size is adopted as-is, with no cross-check
against the source DB; a nonempty file whose size is not a multiple of the
element size is still fatal. -/
theorem C9_amended (sizeofElem filesize : Nat) (data : List Nat)
    (_hs : 0 < sizeofElem) (hf : 0 < filesize) :
    (filesize % sizeofElem = 0 →
      mmapOrLoad sizeofElem 0 filesize data = Except.ok (false, data)) ∧
    (filesize % sizeofElem ≠ 0 →
      mmapOrLoad sizeofElem 0 filesize data = Except.error ()) := by
  have hf' : filesize ≠ 0 := hf.ne'
  have hred : mmapOrLoad sizeofElem 0 filesize data =
      (if filesize = filesize / sizeofElem * sizeofElem then Except.ok (false, data)
       else Except.error ()) := by
    unfold mmapOrLoad
    rw [if_pos hf']
    simp
  rw [hred]
  constructor
  · intro hmod
    have hdvd : sizeofElem ∣ filesize := Nat.dvd_of_mod_eq_zero hmod
    rw [if_pos (Nat.div_mul_cancel hdvd).symm]
  · intro hmod
    rw [if_neg (fun h => hmod (by rw [h]; exact Nat.mul_mod_left _ _))]

/-- Witness for claim C9 at a concrete store: element size 24, a 48-byte
file (2 elements) is adopted as-is with needs_build = false. -/
theorem C9_amended_witness : mmapOrLoad 24 0 48 [9] = Except.ok (false, [9]) :=
  (C9_amended 24 48 [9] (by decide) (by decide)).1 (by decide)

/-- GrowsDedup is reflexive. -/
theorem gd_refl (m f : List Nat) : GrowsDedup m f m f :=
  ⟨fun _ h => h, [], (List.append_nil m).symm, List.nodup_nil,
    fun x hx => absurd hx (List.not_mem_nil x)⟩

/-- GrowsDedup composes: deltas concatenate and stay duplicate-free because
later pushes are outside the grown footprint. -/
theorem gd_trans {m f m2 f2 m3 f3 : List Nat}
    (h1 : GrowsDedup m f m2 f2) (h2 : GrowsDedup m2 f2 m3 f3) :
    GrowsDedup m f m3 f3 := by
  obtain ⟨mono1, d1, rfl, nd1, hd1⟩ := h1
  obtain ⟨mono2, d2, rfl, nd2, hd2⟩ := h2
  refine ⟨fun x hx => mono2 x (mono1 x hx), d1 ++ d2, List.append_assoc m d1 d2, ?_, ?_⟩
  · rw [List.nodup_append]
    refine ⟨nd1, nd2, ?_⟩
    intro x hx1 hx2
    exact (hd2 x hx2).1 (hd1 x hx1).2
  · intro x hx
    rcases List.mem_append.mp hx with h | h
    · exact ⟨(hd1 x h).1, mono2 x (hd1 x h).2⟩
    · exact ⟨fun hf => (hd2 x h).1 (mono1 x hf), (hd2 x h).2⟩

/-- A single dedup push: appending a snp_id outside the footprint and
recording it in the footprint is a GrowsDedup step. -/
theorem gd_push {m f : List Nat} (snp : Nat) (h : snp ∉ f) :
    GrowsDedup m f (m ++ [snp]) (snp :: f) := by
  refine ⟨fun x hx => List.mem_cons_of_mem _ hx, [snp], rfl, List.nodup_singleton snp, ?_⟩
  intro x hx
  rcases List.mem_singleton.mp hx with rfl
  exact ⟨h, List.mem_cons_self _ _⟩

/-- The scanner inner loop only grows the hit list by deduplicated snp_ids. -/
theorem zLoop_gd (kidx : Nat → Nat) (snps : Nat → Nat × Nat × Nat) (kmer : Nat) :
    ∀ (fuel z : Nat) (hits fp hits2 fp2 : List Nat),
    zLoop kidx snps kmer fuel z hits fp = (hits2, fp2) →
    GrowsDedup hits fp hits2 fp2 := by
  intro fuel
  induction fuel with
  | zero =>
    intro z hits fp hits2 fp2 h
    simp only [zLoop] at h
    obtain ⟨rfl, rfl⟩ := Prod.mk.injEq .. ▸ h
    exact gd_refl hits fp
  | succ n ih =>
    intro z hits fp hits2 fp2 h
    simp only [zLoop] at h
    split at h
    · split at h
      · exact ih (z + 1) hits fp hits2 fp2 h
      · next hmem =>
        exact gd_trans (gd_push _ hmem) (ih (z + 1) _ _ _ _ h)
    · split at h
      · obtain ⟨rfl, rfl⟩ := Prod.mk.injEq .. ▸ h
        exact gd_refl hits fp
      · exact ih (z + 1) hits fp hits2 fp2 h

/-- A successful windowStep only grows the hit list by deduplicated snp_ids. -/
theorem windowStep_gd (M2 M3 : Nat) (db : ScanDB) (buf : List Char) (j : Nat)
    (hits fp hits2 fp2 : List Nat)
    (h : windowStep M2 M3 db buf (Except.ok (hits, fp)) j = Except.ok (hits2, fp2)) :
    GrowsDedup hits fp hits2 fp2 := by
  simp only [windowStep] at h
  split at h
  · split at h
    · split at h
      · injection h with h
        exact zLoop_gd _ _ _ _ _ _ _ _ _ h
      · exact absurd h (by simp)
    · injection h with h
      obtain ⟨rfl, rfl⟩ := Prod.mk.injEq .. ▸ h
      exact gd_refl hits fp
  · exact absurd h (by simp)

/-- Folding windowStep from an error state stays in that error state. -/
theorem foldl_ws_err (M2 M3 : Nat) (db : ScanDB) (buf : List Char) (e : ScanErr) :
    ∀ js : List Nat,
    js.foldl (windowStep M2 M3 db buf) (Except.error e) = Except.error e := by
  intro js
  induction js with
  | nil => rfl
  | cons j js ih =>
    rw [List.foldl_cons]
    exact ih

/-- A successful window fold only grows the hit list by deduplicated
snp_ids. -/
theorem foldl_ws_gd (M2 M3 : Nat) (db : ScanDB) (buf : List Char) :
    ∀ (js : List Nat) (hits fp hits2 fp2 : List Nat),
    js.foldl (windowStep M2 M3 db buf) (Except.ok (hits, fp)) = Except.ok (hits2, fp2) →
    GrowsDedup hits fp hits2 fp2 := by
  intro js
  induction js with
  | nil =>
    intro hits fp hits2 fp2 h
    rw [List.foldl_nil] at h
    injection h with h
    obtain ⟨rfl, rfl⟩ := Prod.mk.injEq .. ▸ h
    exact gd_refl hits fp
  | cons j js ih =>
    intro hits fp hits2 fp2 h
    rw [List.foldl_cons] at h
    rcases hws : windowStep M2 M3 db buf (Except.ok (hits, fp)) j with e | p
    · rw [hws, foldl_ws_err] at h
      exact absurd h (by simp)
    · obtain ⟨m1, f1⟩ := p
      rw [hws] at h
      exact gd_trans (windowStep_gd M2 M3 db buf j hits fp m1 f1 hws) (ih m1 f1 hits2 fp2 h)

/-- A successful tokenResult only grows the hit list by deduplicated
snp_ids. -/
theorem tokenResult_gd (M2 M3 : Nat) (db : ScanDB) (s : ScanState) (m2 f2 : List Nat)
    (h : tokenResult M2 M3 db s = Except.ok (m2, f2)) :
    GrowsDedup s.kmer_matches s.footprint m2 f2 := by
  unfold tokenResult at h
  split at h
  · unfold processToken at h
    exact foldl_ws_gd M2 M3 db s.seq_buf _ _ _ _ _ h
  · injection h with h
    obtain ⟨rfl, rfl⟩ := Prod.mk.injEq .. ▸ h
    exact gd_refl _ _

/-- Unless charStep is at the footprint-clearing newline, it only grows the
hit list by deduplicated snp_ids not yet in the footprint. -/
theorem charStep_gd (M2 M3 : Nat) (db : ScanDB) (s : ScanState) (ch : Char)
    (hnc : ¬ clearsAt s ch) :
    GrowsDedup s.kmer_matches s.footprint
      (charStep M2 M3 db s ch).kmer_matches (charStep M2 M3 db s ch).footprint := by
  by_cases herr : s.err.isSome = true
  · simp only [charStep, if_pos herr]
    exact gd_refl _ _
  · simp only [charStep, if_neg herr]
    by_cases h4 : (if s.c = '\n' then s.n_lines + 1 else s.n_lines) % 4 ≠ 1
    · simp only [if_pos h4]
      exact gd_refl _ _
    · simp only [if_neg h4]
      by_cases hte : ch = '\n' ∨ ch = 'N' ∨ ch = 'n'
      · simp only [if_neg (not_not_intro hte)]
        rcases htr : tokenResult M2 M3 db s with e | p
        · exact gd_refl _ _
        · obtain ⟨m, f⟩ := p
          have hch : ch ≠ '\n' := by
            intro hcheq
            apply hnc
            refine ⟨?_, not_ne_iff.mp h4, hcheq⟩
            rcases he : s.err with _ | e2
            · rfl
            · rw [he] at herr
              exact absurd rfl herr
          simp only [if_neg hch]
          exact tokenResult_gd M2 M3 db s m f htr
      · simp only [if_pos hte]
        exact gd_refl _ _

/-- take (n + 1) appends the element at index n (getD form). -/
theorem take_succ_getD : ∀ (l : List Char) (n : Nat) (d : Char), n < l.length →
    l.take (n + 1) = l.take n ++ [l.getD n d] := by
  intro l
  induction l with
  | nil =>
    intro n d h
    simp at h
  | cons a l ih =>
    intro n d h
    cases n with
    | zero => simp
    | succ m =>
      have h2 : m < l.length := by simpa using h
      simp only [List.take_succ_cons, List.getD_cons_succ, ih m d h2, List.cons_append]

/-- Between two cut points with no footprint clear in between, the scanner
state evolves by a GrowsDedup step. -/
theorem scan_take_gd (M2 M3 : Nat) (db : ScanDB) (input : List Char) (i : Nat) :
    ∀ j, i ≤ j → j ≤ input.length →
    (∀ k, i ≤ k → k < j →
      ¬ clearsAt (scanFinal M2 M3 db (input.take k)) (input.getD k ' ')) →
    GrowsDedup (scanFinal M2 M3 db (input.take i)).kmer_matches
      (scanFinal M2 M3 db (input.take i)).footprint
      (scanFinal M2 M3 db (input.take j)).kmer_matches
      (scanFinal M2 M3 db (input.take j)).footprint := by
  intro j
  induction j with
  | zero =>
    intro hij hlen hnc
    have h0 : i = 0 := Nat.le_zero.mp hij
    subst h0
    exact gd_refl _ _
  | succ n ih =>
    intro hij hlen hnc
    rcases Nat.lt_or_ge i (n + 1) with hlt | hge
    · have hin : i ≤ n := Nat.lt_succ_iff.mp hlt
      have hnlen : n < input.length := hlen
      have hstep : scanFinal M2 M3 db (input.take (n + 1)) =
          charStep M2 M3 db (scanFinal M2 M3 db (input.take n)) (input.getD n ' ') := by
        rw [take_succ_getD input n ' ' hnlen]
        unfold scanFinal
        rw [List.foldl_append]
        rfl
      rw [hstep]
      refine gd_trans (ih hin (Nat.le_of_lt hnlen) ?_)
        (charStep_gd M2 M3 db _ _ (hnc n hin (Nat.lt_succ_self n)))
      intro k hk1 hk2
      exact hnc k hk1 (Nat.lt_succ_of_lt hk2)
    · have h0 : i = n + 1 := Nat.le_antisymm hij hge
      subst h0
      exact gd_refl _ _

/-- A GrowsDedup step adds at most one occurrence of any snp_id. -/
theorem gd_count {m f m2 f2 : List Nat} (h : GrowsDedup m f m2 f2) (snp : Nat) :
    m2.count snp ≤ m.count snp + 1 := by
  obtain ⟨-, d, rfl, nd, -⟩ := h
  rw [List.count_append]
  have hle : d.count snp ≤ 1 := List.nodup_iff_count_le_one.mp nd snp
  omega

/-- Claim C7: per-read deduplication.  (1) Across any stretch of the input
during which the footprint is never cleared (in particular across all tokens
of one read), the hit count of every SNP grows by at most 1.  (2) At the
newline ending a sequence line the footprint is cleared (whenever the step
does not abort).  (3) At every character other than a newline, including the
N wildcards that end tokens, the footprint is preserved. -/
theorem C7_per_read_dedup :
    (∀ (M2 M3 : Nat) (db : ScanDB) (input : List Char) (i j : Nat),
      i ≤ j → j ≤ input.length →
      (∀ k, i ≤ k → k < j →
        ¬ clearsAt (scanFinal M2 M3 db (input.take k)) (input.getD k ' ')) →
      ∀ snp, (scanFinal M2 M3 db (input.take j)).kmer_matches.count snp ≤
        (scanFinal M2 M3 db (input.take i)).kmer_matches.count snp + 1) ∧
    (∀ (M2 M3 : Nat) (db : ScanDB) (s : ScanState) (ch : Char),
      clearsAt s ch → (charStep M2 M3 db s ch).err = none →
      (charStep M2 M3 db s ch).footprint = []) ∧
    (∀ (M2 M3 : Nat) (db : ScanDB) (s : ScanState) (ch : Char),
      ch ≠ '\n' → ∀ x, x ∈ s.footprint → x ∈ (charStep M2 M3 db s ch).footprint) := by
  refine ⟨?_, ?_, ?_⟩
  · intro M2 M3 db input i j hij hlen hnc snp
    exact gd_count (scan_take_gd M2 M3 db input i j hij hlen hnc) snp
  · intro M2 M3 db s ch hc herrnone
    obtain ⟨he, hmod, hch⟩ := hc
    have herr : ¬ s.err.isSome = true := by
      rw [he]
      simp
    simp only [charStep, if_neg herr, if_neg (not_not_intro hmod),
      if_neg (not_not_intro (Or.inl hch))] at herrnone ⊢
    rcases htr : tokenResult M2 M3 db s with e | p
    · rw [htr] at herrnone
      simp at herrnone
    · obtain ⟨m, f⟩ := p
      simp [hch]
  · intro M2 M3 db s ch hch x hx
    by_cases herr : s.err.isSome = true
    · simp only [charStep, if_pos herr]
      exact hx
    · simp only [charStep, if_neg herr]
      by_cases h4 : (if s.c = '\n' then s.n_lines + 1 else s.n_lines) % 4 ≠ 1
      · simp only [if_pos h4]
        exact hx
      · simp only [if_neg h4]
        by_cases hte : ch = '\n' ∨ ch = 'N' ∨ ch = 'n'
        · simp only [if_neg (not_not_intro hte)]
          rcases htr : tokenResult M2 M3 db s with e | p
          · exact hx
          · obtain ⟨m, f⟩ := p
            simp only [if_neg hch]
            exact (tokenResult_gd M2 M3 db s m f htr).1 x hx
        · simp only [if_pos hte]
          exact hx

/-- Witness for claim C7: the dedup bound applied to the concrete two-byte
input A newline, over which no footprint clear occurs before index 2, and
the footprint-preservation part at a concrete token boundary. -/
theorem C7_per_read_dedup_witness :
    (scanFinal 32 36 emptyDB (['A', '\n'].take 2)).kmer_matches.count 5 ≤
      (scanFinal 32 36 emptyDB (['A', '\n'].take 0)).kmer_matches.count 5 + 1 :=
  C7_per_read_dedup.1 32 36 emptyDB ['A', '\n'] 0 2 (by decide) (by decide)
    (fun k h0 h2 => by interval_cases k <;> decide) 5

/-- A failing windowStep started from a live accumulator fails with the
seq_encode assert, never with the truncation error. -/
theorem windowStep_err_bad (M2 M3 : Nat) (db : ScanDB) (buf : List Char)
    (hits fp : List Nat) (j : Nat) (e : ScanErr)
    (h : windowStep M2 M3 db buf (Except.ok (hits, fp)) j = Except.error e) :
    e = ScanErr.badBase := by
  simp only [windowStep] at h
  split at h
  · split at h
    · split at h
      · exact absurd h (by simp)
      · injection h with h
        exact h.symm
    · exact absurd h (by simp)
  · injection h with h
    exact h.symm

/-- A failing window fold fails with the seq_encode assert. -/
theorem foldl_ws_err_bad (M2 M3 : Nat) (db : ScanDB) (buf : List Char) :
    ∀ (js : List Nat) (hits fp : List Nat) (e : ScanErr),
    js.foldl (windowStep M2 M3 db buf) (Except.ok (hits, fp)) = Except.error e →
    e = ScanErr.badBase := by
  intro js
  induction js with
  | nil =>
    intro hits fp e h
    rw [List.foldl_nil] at h
    exact absurd h (by simp)
  | cons j js ih =>
    intro hits fp e h
    rw [List.foldl_cons] at h
    rcases hws : windowStep M2 M3 db buf (Except.ok (hits, fp)) j with e2 | p
    · rw [hws, foldl_ws_err] at h
      injection h with h
      rw [← h]
      exact windowStep_err_bad M2 M3 db buf hits fp j e2 hws
    · obtain ⟨m, f⟩ := p
      rw [hws] at h
      exact ih m f e h

/-- A failing tokenResult fails with the seq_encode assert. -/
theorem tokenResult_err_bad (M2 M3 : Nat) (db : ScanDB) (s : ScanState) (e : ScanErr)
    (h : tokenResult M2 M3 db s = Except.error e) : e = ScanErr.badBase := by
  unfold tokenResult at h
  split at h
  · unfold processToken at h
    exact foldl_ws_err_bad M2 M3 db s.seq_buf _ _ _ _ h
  · exact absurd h (by simp)

/-- Any fatal marker set during charStep is either inherited or the
seq_encode assert; the byte loop itself never produces the truncation
error. -/
theorem charStep_err (M2 M3 : Nat) (db : ScanDB) (s : ScanState) (ch : Char) (e : ScanErr)
    (h : (charStep M2 M3 db s ch).err = some e) :
    s.err = some e ∨ e = ScanErr.badBase := by
  by_cases herr : s.err.isSome = true
  · simp only [charStep, if_pos herr] at h
    exact Or.inl h
  · simp only [charStep, if_neg herr] at h
    by_cases h4 : (if s.c = '\n' then s.n_lines + 1 else s.n_lines) % 4 ≠ 1
    · simp only [if_pos h4] at h
      exact Or.inl h
    · simp only [if_neg h4] at h
      by_cases hte : ch = '\n' ∨ ch = 'N' ∨ ch = 'n'
      · simp only [if_neg (not_not_intro hte)] at h
        rcases htr : tokenResult M2 M3 db s with e2 | p
        · rw [htr] at h
          simp only at h
          injection h with h
          rw [← h]
          exact Or.inr (tokenResult_err_bad M2 M3 db s e2 htr)
        · obtain ⟨m, f⟩ := p
          rw [htr] at h
          simp only at h
          exact absurd h (by simp)
      · simp only [if_pos hte] at h
        exact Or.inl h

/-- In a non-aborted step, the line counter advances by one exactly at a
newline. -/
theorem charStep_el (M2 M3 : Nat) (db : ScanDB) (s : ScanState) (ch : Char)
    (he : s.err = none) :
    elOf (charStep M2 M3 db s ch) = elOf s + (if ch = '\n' then 1 else 0) := by
  have herr : ¬ s.err.isSome = true := by
    rw [he]
    simp
  simp only [charStep, if_neg herr]
  by_cases h4 : (if s.c = '\n' then s.n_lines + 1 else s.n_lines) % 4 ≠ 1
  · simp only [if_pos h4, elOf]
    by_cases hch : ch = '\n' <;> simp [hch]
  · simp only [if_neg h4]
    by_cases hte : ch = '\n' ∨ ch = 'N' ∨ ch = 'n'
    · simp only [if_neg (not_not_intro hte)]
      rcases htr : tokenResult M2 M3 db s with e | p
      · simp only [elOf]
        by_cases hch : ch = '\n' <;> simp [hch]
      · obtain ⟨m, f⟩ := p
        simp only [elOf]
        by_cases hch : ch = '\n' <;> simp [hch]
    · simp only [if_pos hte, elOf]
      by_cases hch : ch = '\n' <;> simp [hch]

/-- In a non-aborted step, the invariant that a zero token length accompanies
a next-line index off the sequence lines is preserved. -/
theorem charStep_token_inv (M2 M3 : Nat) (db : ScanDB) (s : ScanState) (ch : Char)
    (he : s.err = none) (htok : elOf s % 4 ≠ 1 → s.token_length = 0)
    (he2 : (charStep M2 M3 db s ch).err = none)
    (h2 : elOf (charStep M2 M3 db s ch) % 4 ≠ 1) :
    (charStep M2 M3 db s ch).token_length = 0 := by
  have herr : ¬ s.err.isSome = true := by
    rw [he]
    simp
  by_cases h4 : (if s.c = '\n' then s.n_lines + 1 else s.n_lines) % 4 ≠ 1
  · have hred : (charStep M2 M3 db s ch).token_length = s.token_length := by
      simp only [charStep, if_neg herr, if_pos h4]
    rw [hred]
    exact htok h4
  · by_cases hte : ch = '\n' ∨ ch = 'N' ∨ ch = 'n'
    · rcases htr : tokenResult M2 M3 db s with e | p
      · have hfull : (charStep M2 M3 db s ch).err = some e := by
          simp only [charStep, if_neg herr, if_neg h4, if_neg (not_not_intro hte), htr]
        rw [hfull] at he2
        exact absurd he2 (by simp)
      · obtain ⟨m, f⟩ := p
        simp only [charStep, if_neg herr, if_neg h4, if_neg (not_not_intro hte), htr]
    · exfalso
      apply h4
      have hch : ch ≠ '\n' := fun hc => hte (Or.inl hc)
      have hel2 : elOf (charStep M2 M3 db s ch) =
          (if s.c = '\n' then s.n_lines + 1 else s.n_lines) := by
        rw [charStep_el M2 M3 db s ch he, if_neg hch]
        simp [elOf]
      rw [hel2] at h2
      exact h2

/-- The scanner byte-loop invariant: starting from a state that is not
marked truncated and whose line index matches n (with zero token length off
sequence lines), the final state is never marked truncated, and when no
fatal error occurred the final line index is n plus the newline count, with
zero token length whenever that index is off the sequence lines. -/
theorem scan_inv (M2 M3 : Nat) (db : ScanDB) :
    ∀ (input : List Char) (s : ScanState) (n : Nat),
    s.err ≠ some ScanErr.truncated →
    (s.err = none → elOf s = n ∧ (n % 4 ≠ 1 → s.token_length = 0)) →
    ((input.foldl (charStep M2 M3 db) s).err ≠ some ScanErr.truncated) ∧
    ((input.foldl (charStep M2 M3 db) s).err = none →
      elOf (input.foldl (charStep M2 M3 db) s) = n + input.count '\n' ∧
      ((n + input.count '\n') % 4 ≠ 1 →
        (input.foldl (charStep M2 M3 db) s).token_length = 0)) := by
  intro input
  induction input with
  | nil =>
    intro s n h1 h2
    rw [List.foldl_nil]
    refine ⟨h1, fun he => ?_⟩
    obtain ⟨hA, hB⟩ := h2 he
    constructor
    · simpa using hA
    · intro hm
      exact hB (by simpa using hm)
  | cons ch rest ih =>
    intro s n h1 h2
    rw [List.foldl_cons]
    have hstep_ne : (charStep M2 M3 db s ch).err ≠ some ScanErr.truncated := by
      intro habs
      rcases charStep_err M2 M3 db s ch _ habs with hsome | hbad
      · exact h1 hsome
      · simp at hbad
    have hstep_inv : (charStep M2 M3 db s ch).err = none →
        elOf (charStep M2 M3 db s ch) = n + (if ch = '\n' then 1 else 0) ∧
        ((n + (if ch = '\n' then 1 else 0)) % 4 ≠ 1 →
          (charStep M2 M3 db s ch).token_length = 0) := by
      intro he2
      have hse : s.err = none := by
        rcases hE : s.err with _ | e2
        · rfl
        · have hid : charStep M2 M3 db s ch = s := by
            simp [charStep, hE]
          rw [hid, hE] at he2
          exact absurd he2 (by simp)
      obtain ⟨heln, htok⟩ := h2 hse
      refine ⟨?_, ?_⟩
      · rw [charStep_el M2 M3 db s ch hse, heln]
      · intro hm
        refine charStep_token_inv M2 M3 db s ch hse (fun hx => htok (heln ▸ hx)) he2 ?_
        rw [charStep_el M2 M3 db s ch hse, heln]
        exact hm
    have hmain := ih (charStep M2 M3 db s ch) (n + (if ch = '\n' then 1 else 0))
      hstep_ne hstep_inv
    have hcount : (ch :: rest).count '\n' = rest.count '\n' + (if ch = '\n' then 1 else 0) := by
      by_cases hch : ch = '\n' <;> simp [List.count_cons, hch]
    refine ⟨hmain.1, ?_⟩
    intro he3
    obtain ⟨hA, hB⟩ := hmain.2 he3
    constructor
    · rw [hA, hcount]
      generalize (if ch = '\n' then 1 else 0) = t
      omega
    · intro hm
      apply hB
      rw [hcount] at hm
      generalize ht : (if ch = '\n' then 1 else 0) = t at hm ⊢
      omega

set_option maxRecDepth 100000 in
/-- Claim C10: truncation is detected only on sequence lines.  (1) For every
index set and every input whose newline count leaves the trailing bytes on a
non-sequence line (count mod 4 not equal to 1), the scanner never reports
the truncation error.  (2) Bytes consumed while the current line is not a
sequence line change neither the token length nor the token buffer.  (3) In
particular, the concrete FASTQ file whose final quality line is cut off
without a newline completes normally with empty output. -/
theorem C10_truncation_only_on_sequence_lines :
    (∀ (M2 M3 : Nat) (db : ScanDB) (input : List Char),
      input.count '\n' % 4 ≠ 1 →
      scanRun M2 M3 db input ≠ Except.error ScanErr.truncated) ∧
    (∀ (M2 M3 : Nat) (db : ScanDB) (s : ScanState) (ch : Char),
      s.err = none →
      (if s.c = '\n' then s.n_lines + 1 else s.n_lines) % 4 ≠ 1 →
      (charStep M2 M3 db s ch).token_length = s.token_length ∧
      (charStep M2 M3 db s ch).seq_buf = s.seq_buf) ∧
    scanRun 32 36 emptyDB fastqTruncatedQual = Except.ok [] := by
  refine ⟨?_, ?_, by rfl⟩
  · intro M2 M3 db input hcount habs
    have hinit1 : initState.err ≠ some ScanErr.truncated := by
      simp [initState]
    have hinit2 : initState.err = none →
        elOf initState = 0 ∧ (0 % 4 ≠ 1 → initState.token_length = 0) :=
      fun _ => ⟨by decide, fun _ => rfl⟩
    have hinv := scan_inv M2 M3 db input initState 0 hinit1 hinit2
    have hsf : scanFinal M2 M3 db input = input.foldl (charStep M2 M3 db) initState := rfl
    rcases herr : (scanFinal M2 M3 db input).err with _ | e
    · obtain ⟨hel, htok⟩ := hinv.2 (by rw [← hsf]; exact herr)
      have htl : (scanFinal M2 M3 db input).token_length = 0 := by
        rw [hsf]
        apply htok
        simpa using hcount
      simp only [scanRun] at habs
      rw [herr] at habs
      simp [htl] at habs
    · have hne := hinv.1
      rw [← hsf] at hne
      simp only [scanRun] at habs
      rw [herr] at habs
      simp only at habs
      injection habs with habs
      rw [habs] at herr
      exact hne herr
  · intro M2 M3 db s ch he hm
    have herr : ¬ s.err.isSome = true := by
      rw [he]
      simp
    simp only [charStep, if_neg herr, if_pos hm]
    simp

set_option maxRecDepth 100000 in
/-- Witness for claim C10: the no-truncation-error theorem applied to the
concrete FASTQ file with a cut-off quality line. -/
theorem C10_truncation_witness :
    scanRun 32 36 emptyDB fastqTruncatedQual ≠ Except.error ScanErr.truncated :=
  C10_truncation_only_on_sequence_lines.1 32 36 emptyDB fastqTruncatedQual (by decide)

end GtPro
